import Mathlib

/-!
Verification of the VERITAS quality-management analytics core.

This file gives a shallow embedding of the core operations of the
repository (the audit ledger and deviation store of
`src/veritas/repository.py`, the business-logic controller of
`src/veritas/session_manager.py`, the statistics and QC rule engine of
`src/veritas/engine/analytics.py`, the report rendering of
`src/veritas/engine/reporting.py`, the lineage reconstruction of
`src/veritas/engine/plotting.py`, the credential check of
`src/veritas/ui/auth.py` and the signing form flow of
`pages/5_Regulatory_Support.py`), and proves or refutes the frozen
claims about them.

Modelling conventions:
- pandas DataFrames are lists of rows; a cell holding NaN/None is `none`.
- Numeric cell values are rationals; the capability index is computed in
  the extended reals so that the one-sided infinite sentinels of the code
  (`np.inf`) are first-class values.
- `pd.Timestamp.now(tz=UTC)` is modelled by a per-process logical clock
  that yields a fresh, strictly larger instant on each call.
- Python exceptions are modelled by `Except` results; every stateful
  operation returns the repository state reached when it finishes or
  raises, so frame properties about failing calls are real statements.
-/

namespace Veritas

/-- An entry of the audit log DataFrame (columns of
`MockDataRepository.write_audit_log`): timestamp, user, action,
record_id, details. -/
structure AuditEntry where
  timestamp : Nat
  user : String
  action : String
  record_id : Option String
  details : String
deriving Repr, DecidableEq

/-- A row of the deviations DataFrame (columns used by the lifecycle
operations; the RCA/CAPA free-text columns do not affect any claim and
are omitted from the row model). -/
structure Deviation where
  id : String
  status : String
  title : String
  priority : String
  linked_record : String
deriving Repr, DecidableEq

/-- The mutable state of `MockDataRepository` that the claims are about:
the deviations table, the audit-log table, and the logical clock backing
`pd.Timestamp.now(tz=UTC)`. -/
structure RepoState where
  deviations : List Deviation
  audit : List AuditEntry
  clock : Nat
deriving Repr, DecidableEq

/-- A repository state with empty tables. -/
def emptyState : RepoState := ⟨[], [], 0⟩

/-- The Python exceptions and user-facing failures that the modelled
operations can produce. -/
inductive VError where
  | valueError (msg : String)
  | keyError (key : String)
  | authenticationFailed
deriving Repr, DecidableEq

/-- `MockDataRepository.write_audit_log(user, action, details, record_id)`:
builds a one-row DataFrame stamped with the current instant and
concatenates it onto the audit table with `ignore_index=True`.  The
operation performs no validation and cannot fail. -/
def write_audit_log (st : RepoState) (user action details : String)
    (record_id : Option String) : RepoState :=
  { st with
    audit := st.audit ++ [⟨st.clock, user, action, record_id, details⟩],
    clock := st.clock + 1 }

/-- `MockDataRepository.update_deviation_status(dev_id, new_status)`:
`loc`-assigns the status column on every row whose id matches. -/
def update_deviation_status (st : RepoState) (dev_id new_status : String) :
    RepoState :=
  { st with
    deviations := st.deviations.map fun d =>
      if d.id = dev_id then { d with status := new_status } else d }

/-- `config._DeviationManagementSettings.kanban_states`. -/
def kanban_states : List String := ["Open", "In Progress", "Under Review", "Closed"]

/-- `SessionManager.advance_deviation_status(dev_id, current_status, username)`:
validates the caller-supplied current status against the Kanban state
list, refuses the final state, then advances to the next state and
writes one audit entry.  The stored status of the deviation is never
read. -/
def advance_deviation_status (st : RepoState)
    (dev_id current_status username : String) :
    RepoState × Except VError Unit :=
  let states := kanban_states
  if current_status ∈ states then
    let current_index := states.indexOf current_status
    if current_index + 1 ≥ states.length then
      (st, .error (.valueError ("Cannot advance status: " ++ current_status ++
        " is the final state.")))
    else
      let new_status := states.getD (current_index + 1) ""
      let st1 := update_deviation_status st dev_id new_status
      let st2 := write_audit_log st1 username "Deviation Status Changed"
        ("Status for " ++ dev_id ++ " changed from " ++ current_status ++
          " to " ++ new_status ++ ".") (some dev_id)
      (st2, .ok ())
  else
    (st, .error (.valueError ("Invalid current status: " ++ current_status)))

/-- One call to the audit append operation, with its arguments. -/
structure AppendCall where
  user : String
  action : String
  details : String
  record_id : Option String
deriving Repr, DecidableEq

/-- The entry that `write_audit_log` appends at instant `t` for call `c`. -/
def mkAuditEntry (t : Nat) (c : AppendCall) : AuditEntry :=
  ⟨t, c.user, c.action, c.record_id, c.details⟩

/-- Run a sequence of `write_audit_log` calls in order. -/
def applyAppends (st : RepoState) (cs : List AppendCall) : RepoState :=
  cs.foldl (fun s c => write_audit_log s c.user c.action c.details c.record_id) st

/-- The block of entries produced by a sequence of appends starting at
clock value `t`. -/
def appendBlock : Nat → List AppendCall → List AuditEntry
  | _, [] => []
  | t, c :: cs => mkAuditEntry t c :: appendBlock (t + 1) cs

/-- The pandas row-index labels of the audit DataFrame: after every
`pd.concat(..., ignore_index=True)` the table carries the RangeIndex
`0, 1, ..., len-1`, which is the only ledger-assigned identifier of an
entry. -/
def ledgerIndices (l : List AuditEntry) : List Nat := List.range l.length

/-- Insertion step of sorting audit entries by their timestamp. -/
def insertByTimestamp (e : AuditEntry) : List AuditEntry → List AuditEntry
  | [] => [e]
  | f :: rest =>
      if e.timestamp ≤ f.timestamp then e :: f :: rest
      else f :: insertByTimestamp e rest

/-- `DataFrame.sort_values(timestamp)` on audit entries.  On the
strictly increasing timestamps produced by the modelled clock every
comparison sort agrees, so a concrete stable sort is used. -/
def sortByTimestamp : List AuditEntry → List AuditEntry
  | [] => []
  | e :: rest => insertByTimestamp e (sortByTimestamp rest)

/-- `plot_data_lineage_graph(df, record_id)`: filters the audit table to
the given record id and sorts by timestamp; the graph then holds one
node per resulting row, chained in that order (an empty result renders
only a placeholder node, i.e. an empty event chain).  This function
returns that ordered event sequence. -/
def trace_lineage (audit : List AuditEntry) (record_id : String) :
    List AuditEntry :=
  sortByTimestamp (audit.filter fun e => e.record_id == some record_id)

/-- A DataFrame row: the `sample_id` identifier column plus the named
numeric cells; a cell holding NaN/None is `none`. -/
structure Row where
  sample_id : String
  cells : List (String × Option ℚ)
deriving Repr, DecidableEq

/-- A pandas DataFrame: its column names and its rows in order. -/
structure DF where
  columns : List String
  rows : List Row
deriving Repr, DecidableEq

/-- `row[c]` for a numeric column: a missing pair or a stored None both
read as a null cell. -/
def getCell (r : Row) (c : String) : Option ℚ := (List.lookup c r.cells).join

/-- `df[c]` for a numeric column `c`: the column as a series. -/
def DF.column (df : DF) (c : String) : List (Option ℚ) :=
  df.rows.map fun r => getCell r c

/-- `config._Limits`: LSL and USL, either possibly absent. -/
structure Limits where
  lsl : Option ℚ
  usl : Option ℚ
deriving Repr, DecidableEq

/-- `config._ProcessCapabilitySettings`: CQA list, spec limits (a dict in
insertion order), Cpk target. -/
structure ProcessCapabilitySettings where
  available_cqas : List String
  spec_limits : List (String × Limits)
  cpk_target : ℚ
deriving Repr, DecidableEq

/-- The values constructed by `_ProcessCapabilitySettings.__init__`. -/
def veritasProcessCapability : ProcessCapabilitySettings :=
  ⟨["purity", "main_impurity", "bio_activity"],
   [("purity", ⟨some 98, some 102⟩),
    ("main_impurity", ⟨some 0, some (1/2)⟩),
    ("bio_activity", ⟨some 90, some 110⟩)],
   133/100⟩

/-- `data_series.dropna()`. -/
def dropna (data : List (Option ℚ)) : List ℚ := data.filterMap id

/-- `data_clean.mean()`. -/
def listMean (l : List ℚ) : ℚ := l.sum / l.length

/-- `data_clean.var()` with the pandas default ddof=1; `data_clean.std()`
is its square root. -/
def sampleVar (l : List ℚ) : ℚ :=
  ((l.map fun x => (x - listMean l) ^ 2).sum) / ((l.length : ℚ) - 1)

/-- `analytics.calculate_cpk(data_series, lsl, usl)`.  The float result is
modelled in the extended reals so that the `np.inf` sentinels are
first-class; `std_dev == 0` is decided on the variance, since the standard
deviation is its square root. -/
noncomputable def calculate_cpk (data : List (Option ℚ)) (lsl usl : Option ℚ) :
    EReal :=
  let data_clean := dropna data
  if data_clean.length < 2 then 0
  else if sampleVar data_clean = 0 then 0
  else
    let mean := listMean data_clean
    let std_dev : ℝ := Real.sqrt (sampleVar data_clean)
    if usl = none ∧ lsl = none then ⊤
    else
      let cpu : EReal := match usl with
        | some u => (((u : ℝ) - (mean : ℝ)) / (3 * std_dev) : ℝ)
        | none => ⊤
      let cpl : EReal := match lsl with
        | some L => (((mean : ℝ) - (L : ℝ)) / (3 * std_dev) : ℝ)
        | none => ⊤
      min cpu cpl

/-- The `rules_config` dict of `apply_qc_rules` (an absent key reads as
disabled). -/
structure RulesConfig where
  check_nulls : Bool
  check_negatives : Bool
  check_spec_limits : Bool
deriving Repr, DecidableEq

/-- The data carried by the formatted `Details` string of a discrepancy
(the f-string rendering itself is presentation and is not modelled). -/
inductive DetailData where
  | nullCols (cols : List String)
  | negValue (v : ℚ)
  | oos (cqa : String) (v : ℚ) (lsl usl : Option ℚ)
deriving Repr, DecidableEq

/-- One row of the discrepancy report of `apply_qc_rules`. -/
structure Discrepancy where
  sample_id : String
  issue : String
  details : DetailData
deriving Repr, DecidableEq

/-- `row[c].isnull()`. -/
def isNullAt (r : Row) (c : String) : Bool := (getCell r c).isNone

/-- The out-of-range mask of the spec-limit rule:
`(value < lsl if lsl is not None else False) or
 (value > usl if usl is not None else False)`. -/
def specOutOfRange (v : ℚ) (lim : Limits) : Bool :=
  (match lim.lsl with | some L => decide (v < L) | none => false) ||
  (match lim.usl with | some U => decide (U < v) | none => false)

/-- `analytics.apply_qc_rules(df, rules_config, app_config)`: builds the
discrepancy list by appending, block by block — missing-value rule over
the rows, negative-value rule over the rows, then the spec-limit rule
with the configured CQAs as the outer loop and the rows as the inner
loop.  Nulls are excluded from the spec-limit rule by the
`notna` conjunct, i.e. only a present value can match its mask. -/
def apply_qc_rules (df : DF) (rules_config : RulesConfig)
    (app_config : ProcessCapabilitySettings) : Except VError (List Discrepancy) :=
  if "sample_id" ∈ df.columns then
    let key_cols := app_config.available_cqas.filter fun c => df.columns.contains c
    let d1 :=
      if rules_config.check_nulls then
        df.rows.foldl (fun acc r =>
          if key_cols.any (fun c => isNullAt r c) then
            acc ++ [⟨r.sample_id, "Missing Value",
              .nullCols (key_cols.filter fun c => isNullAt r c)⟩]
          else acc) []
      else []
    let d2 :=
      if rules_config.check_negatives && df.columns.contains "bio_activity" then
        df.rows.foldl (fun acc r =>
          match getCell r "bio_activity" with
          | some v =>
              if v < 0 then
                acc ++ [⟨r.sample_id, "Impossible Negative Value", .negValue v⟩]
              else acc
          | none => acc) []
      else []
    let d3 :=
      if rules_config.check_spec_limits then
        app_config.spec_limits.foldl (fun acc p =>
          if df.columns.contains p.1 then
            df.rows.foldl (fun acc2 r =>
              match getCell r p.1 with
              | some v =>
                  if specOutOfRange v p.2 then
                    acc2 ++ [⟨r.sample_id, "Out of Specification",
                      .oos p.1 v p.2.lsl p.2.usl⟩]
                  else acc2
              | none => acc2) acc
          else acc) []
      else []
    .ok (d1 ++ d2 ++ d3)
  else
    .error (.valueError "DataFrame must contain sample_id column.")

/-- `df[cols].dropna()`: each row projected to the selected feature
columns, keeping exactly the rows with no null among them. -/
def dropnaProj (df : DF) (cols : List String) : List (List ℚ) :=
  df.rows.filterMap fun r => cols.mapM fun c => getCell r c

/-- `analytics.run_anomaly_detection(df, cols, contamination)`.  The
fitted sklearn `IsolationForest.fit_predict` is an external model,
passed here as the function `fit_predict`; the claims do not depend on
its values.  The returned pair is (predictions, kept DataFrame as
columns and rows). -/
def run_anomaly_detection (df : DF) (cols : List String) (contamination : ℚ)
    (fit_predict : List (List ℚ) → List Int) :
    Except VError (List Int × (List String × List (List ℚ))) :=
  if ¬ (cols.all fun c => df.columns.contains c) then
    .error (.valueError "DataFrame must contain all specified columns.")
  else if ¬ (0 < contamination ∧ contamination < 1/2) then
    .error (.valueError "Contamination must be between 0 and 0.5.")
  else
    let data_to_fit := dropnaProj df cols
    if data_to_fit.length < 2 then .ok ([], (cols, []))
    else .ok (fit_predict data_to_fit, (cols, data_to_fit))

/-- The `sections_config` dict built by the report request form. -/
structure Sections where
  include_summary_stats : Bool
  include_cpk_analysis : Bool
  include_full_dataset : Bool
deriving Repr, DecidableEq

/-- The signature block embedded on signing: user, UTC instant
(strftime rendering is presentation), reason. -/
structure SigDetails where
  user : String
  timestamp : Nat
  reason : String
deriving Repr, DecidableEq

/-- The figure handle built by `plotting.plot_process_capability`,
modelled by the inputs it renders (chart drawing is presentation). -/
structure PlotFig where
  data : DF
  cqa : String
  lsl : Option ℚ
  usl : Option ℚ
  cpk : EReal
  cpk_target : ℚ

/-- The `report_data` dict assembled by
`SessionManager.generate_draft_report` and consumed by the rendering
engine and the signing step. -/
structure ReportData where
  study_id : String
  commentary : String
  sections_config : Sections
  data : DF
  cqa : String
  plot_fig : PlotFig
  signature_details : Option SigDetails

/-- The semantic content of a rendered PDF
(`reporting.generate_pdf_report`): the watermark text (empty = never
drawn), the summary section, the optional content sections, and the
optional signature block.  Page layout is presentation. -/
structure PdfDoc where
  watermark : String
  study_id : String
  commentary : String
  summary_stats_for : Option String
  plot : Option PlotFig
  full_dataset : Option DF
  signature : Option SigDetails

/-- The semantic content of a rendered PowerPoint
(`reporting.generate_ppt_report`): title slide plus optional stats and
plot slides.  It has no watermark and no signature section. -/
structure PptDoc where
  study_id : String
  summary_stats_for : Option String
  plot : Option PlotFig

/-- A rendered report artifact (the returned bytes). -/
inductive Artifact where
  | pdf (doc : PdfDoc)
  | ppt (doc : PptDoc)

/-- Whether an artifact carries a draft watermark. -/
def Artifact.isWatermarked : Artifact → Bool
  | .pdf doc => doc.watermark != ""
  | .ppt _ => false

/-- `reporting.generate_pdf_report(report_data, watermark)`: validates
`not all([study_id, commentary, isinstance(df, DataFrame), sections_config])`
(the DataFrame is always one here and `sections_config` is a nonempty
dict at every call site, so the truthiness check reduces to the two
strings), then renders the sections.  The watermark is drawn on each
page only when nonempty. -/
def generate_pdf_report (report_data : ReportData) (watermark : String) :
    Except VError PdfDoc :=
  if report_data.study_id = "" ∨ report_data.commentary = "" then
    .error (.valueError "Report data is missing one or more required keys.")
  else
    .ok
      { watermark := watermark,
        study_id := report_data.study_id,
        commentary := report_data.commentary,
        summary_stats_for :=
          if report_data.sections_config.include_summary_stats then
            some report_data.cqa
          else none,
        plot :=
          if report_data.sections_config.include_cpk_analysis then
            some report_data.plot_fig
          else none,
        full_dataset :=
          if report_data.sections_config.include_full_dataset then
            some report_data.data
          else none,
        signature := report_data.signature_details }

/-- `reporting.generate_ppt_report(report_data)`. -/
def generate_ppt_report (report_data : ReportData) : PptDoc :=
  { study_id := report_data.study_id,
    summary_stats_for :=
      if report_data.sections_config.include_summary_stats then
        some report_data.cqa
      else none,
    plot :=
      if report_data.sections_config.include_cpk_analysis then
        some report_data.plot_fig
      else none }

/-- The `report_params` dict passed to
`SessionManager.generate_draft_report`; `.get` on an absent key gives
`none`. -/
structure ReportParams where
  report_df : Option DF
  study_id : Option String
  report_format : Option String
  cqa : Option String
  sections_config : Option Sections
  commentary : Option String

/-- The dict returned by `SessionManager.generate_draft_report`. -/
structure DraftResult where
  filename : String
  mime : String
  artifact : Artifact
  report_data : ReportData

/-- `SessionManager.generate_draft_report(report_params)`: validates the
parameters (an absent or falsy value fails), reads the configured spec
limits (`specs[cqa]` raises KeyError for an unknown CQA, and
`report_df[cqa]` raises KeyError for a missing column), computes the
Cpk, builds `report_data` with the capability plot, and renders a
PDF with the DRAFT watermark or a PowerPoint depending on the format.
It performs no repository write, so the state passes through
unchanged on every path. -/
noncomputable def generate_draft_report (st : RepoState) (p : ReportParams) :
    RepoState × Except VError DraftResult :=
  match p.report_df, p.study_id, p.report_format, p.cqa, p.sections_config,
      p.commentary with
  | some report_df, some study_id, some report_format, some cqa,
      some sections_config, some commentary =>
    if study_id = "" ∨ report_format = "" ∨ cqa = "" ∨ commentary = "" then
      (st, .error (.valueError
        "One or more required parameters for report generation are missing."))
    else
      match veritasProcessCapability.spec_limits.lookup cqa with
      | none => (st, .error (.keyError cqa))
      | some specs =>
        if cqa ∈ report_df.columns then
          let lsl := specs.lsl
          let usl := specs.usl
          let cpk_value := calculate_cpk (report_df.column cqa) lsl usl
          let report_data : ReportData :=
            ⟨study_id, commentary, sections_config, report_df, cqa,
              ⟨report_df, cqa, lsl, usl, cpk_value,
                veritasProcessCapability.cpk_target⟩, none⟩
          if report_format = "PDF" then
            match generate_pdf_report report_data "DRAFT" with
            | .error e => (st, .error e)
            | .ok doc =>
                (st, .ok ⟨"DRAFT_VERITAS_Summary_" ++ study_id ++ "_" ++ cqa ++
                  ".pdf", "application/pdf", .pdf doc, report_data⟩)
          else
            (st, .ok ⟨"DRAFT_VERITAS_PPT_" ++ study_id ++ "_" ++ cqa ++ ".pptx",
              "application/vnd.openxmlformats-officedocument.presentationml.presentation",
              .ppt (generate_ppt_report report_data), report_data⟩)
        else (st, .error (.keyError cqa))
  | _, _, _, _, _, _ =>
      (st, .error (.valueError
        "One or more required parameters for report generation are missing."))

/-- The dict returned by `SessionManager.finalize_and_sign_report`. -/
structure FinalResult where
  filename : String
  final_doc : PdfDoc
  mime : String

/-- `SessionManager.finalize_and_sign_report(draft_report_data,
signing_reason, username)`: stamps the signature block with the current
UTC instant, re-renders the PDF with the default empty watermark, and
only after a successful render appends the one E-Signature Applied
audit entry. -/
def finalize_and_sign_report (st : RepoState) (draft_report_data : ReportData)
    (signing_reason username : String) : RepoState × Except VError FinalResult :=
  let final_filename :=
    "FINAL_VERITAS_Summary_" ++ draft_report_data.study_id ++ ".pdf"
  let signature_details : SigDetails := ⟨username, st.clock, signing_reason⟩
  let st1 : RepoState := { st with clock := st.clock + 1 }
  let draft2 :=
    { draft_report_data with signature_details := some signature_details }
  match generate_pdf_report draft2 "" with
  | .error e => (st1, .error e)
  | .ok doc =>
      let st2 := write_audit_log st1 username "E-Signature Applied"
        ("Signed report for study " ++ draft_report_data.study_id ++
          " for reason: " ++ signing_reason ++ ".")
        (some draft_report_data.study_id)
      (st2, .ok ⟨final_filename, doc, "application/pdf"⟩)

/-- `auth.verify_credentials(username, password)`: a falsy (empty)
username or password is rejected, then the mock check. -/
def verify_credentials (username password : String) : Bool :=
  if username = "" ∨ password = "" then false
  else if username = "testuser" ∧ password = "password" then true
  else false

/-- The signing submit flow of the regulatory-support page: the form
rejects when `verify_credentials` fails, and only then delegates to
`SessionManager.finalize_and_sign_report`.  (The form also rejects an
empty password one step earlier; `verify_credentials` is false there
too, and that refusal equally leaves the repository untouched, so both
refusals are modelled as the authentication failure outcome.) -/
def sign_and_lock (st : RepoState) (draft_report_data : ReportData)
    (signing_reason username password : String) :
    RepoState × Except VError FinalResult :=
  if verify_credentials username password then
    finalize_and_sign_report st draft_report_data signing_reason username
  else (st, .error .authenticationFailed)

/-- Declarative form of the missing-value block of `apply_qc_rules`
(follows the spec wording: one discrepancy per row listing the offending
columns, rows in source order), to be compared with the foldl in the
source. -/
def qcMissing (df : DF) (rules_config : RulesConfig)
    (app_config : ProcessCapabilitySettings) : List Discrepancy :=
  if rules_config.check_nulls then
    let key_cols := app_config.available_cqas.filter fun c => df.columns.contains c
    (df.rows.filter fun r => key_cols.any fun c => isNullAt r c).map fun r =>
      ⟨r.sample_id, "Missing Value",
        .nullCols (key_cols.filter fun c => isNullAt r c)⟩
  else []

/-- Declarative form of the negative-value block of `apply_qc_rules`:
flagged rows in source order. -/
def qcNegative (df : DF) (rules_config : RulesConfig) : List Discrepancy :=
  if rules_config.check_negatives && df.columns.contains "bio_activity" then
    df.rows.filterMap fun r =>
      match getCell r "bio_activity" with
      | some v =>
          if v < 0 then
            some ⟨r.sample_id, "Impossible Negative Value", .negValue v⟩
          else none
      | none => none
  else []

/-- Declarative form of the spec-limit block of `apply_qc_rules`: the
configured CQAs in dict order as the outer dimension, the flagged rows
in source order within each CQA. -/
def qcSpecLimit (df : DF) (rules_config : RulesConfig)
    (app_config : ProcessCapabilitySettings) : List Discrepancy :=
  if rules_config.check_spec_limits then
    app_config.spec_limits.flatMap fun p =>
      if df.columns.contains p.1 then
        df.rows.filterMap fun r =>
          match getCell r p.1 with
          | some v =>
              if specOutOfRange v p.2 then
                some ⟨r.sample_id, "Out of Specification",
                  .oos p.1 v p.2.lsl p.2.usl⟩
              else none
          | none => none
      else []
  else []

/-- Fixture: a two-row dataset where the purity rule flags row 1 and the
bio-activity rule flags row 0, exposing the CQA-major output order of
the spec-limit block. -/
def dfOrder : DF :=
  ⟨["sample_id", "purity", "bio_activity"],
   [⟨"S1", [("purity", some 100), ("bio_activity", some 200)]⟩,
    ⟨"S2", [("purity", some 150), ("bio_activity", some 100)]⟩]⟩

/-- Fixture: only the spec-limit rule enabled. -/
def rcSpecOnly : RulesConfig := ⟨false, false, true⟩

/-- Fixture: the five-row purity scenario — one null, one value of 150,
all other values within the configured spec limits and no nulls outside
the one row (the purity column is the only critical column present). -/
def dfScenario : DF :=
  ⟨["sample_id", "purity"],
   [⟨"S1", [("purity", some 100)]⟩,
    ⟨"S2", [("purity", none)]⟩,
    ⟨"S3", [("purity", some 150)]⟩,
    ⟨"S4", [("purity", some 99)]⟩,
    ⟨"S5", [("purity", some 101)]⟩]⟩

/-- Fixture: nulls and spec limits enabled, negatives disabled. -/
def rcNullsSpec : RulesConfig := ⟨true, false, true⟩

/-- Fixture: a deviation whose stored status is the terminal state. -/
def stClosedDev : RepoState :=
  ⟨[⟨"DEV-1", "Closed", "OOS Result Found", "High", "SMPL-2024000"⟩], [], 0⟩

/-- Fixture: a deviation whose stored status is Open. -/
def stOpenDev : RepoState :=
  ⟨[⟨"DEV-2", "Open", "Instrument Drift Detected", "Medium", "SMPL-2024001"⟩],
   [], 0⟩

/-- Fixture: a draft report data value as produced by the draft stage. -/
def draftFixture : ReportData :=
  ⟨"STUDY-7", "Commentary text", ⟨false, false, false⟩,
   ⟨["sample_id", "purity"], [⟨"S1", [("purity", some 100)]⟩]⟩,
   "purity", ⟨⟨["sample_id", "purity"], [⟨"S1", [("purity", some 100)]⟩]⟩,
     "purity", some 98, some 102, 0, 133/100⟩, none⟩

/-- Fixture: draft-report parameters selecting the PowerPoint format. -/
def paramsPpt : ReportParams :=
  ⟨some ⟨["sample_id", "purity"], [⟨"S1", [("purity", some 100)]⟩]⟩,
   some "STUDY-7", some "PowerPoint", some "purity",
   some ⟨false, false, false⟩, some "Commentary text"⟩

/-- Fixture: draft-report parameters selecting the PDF format. -/
def paramsPdf : ReportParams :=
  ⟨some ⟨["sample_id", "purity"], [⟨"S1", [("purity", some 100)]⟩]⟩,
   some "STUDY-7", some "PDF", some "purity",
   some ⟨false, false, false⟩, some "Commentary text"⟩

/-- Fixture: the report data assembled by the draft stage for
`paramsPdf`. -/
noncomputable def rdPdfFixture : ReportData :=
  ⟨"STUDY-7", "Commentary text", ⟨false, false, false⟩,
   ⟨["sample_id", "purity"], [⟨"S1", [("purity", some 100)]⟩]⟩, "purity",
   ⟨⟨["sample_id", "purity"], [⟨"S1", [("purity", some 100)]⟩]⟩, "purity",
     some 98, some 102,
     calculate_cpk
       (DF.column ⟨["sample_id", "purity"], [⟨"S1", [("purity", some 100)]⟩]⟩
         "purity") (some 98) (some 102), 133/100⟩, none⟩

/-- Fixture: the draft result produced for `paramsPdf`. -/
noncomputable def rPdfFixture : DraftResult :=
  ⟨"DRAFT_VERITAS_Summary_STUDY-7_purity.pdf", "application/pdf",
   .pdf ⟨"DRAFT", "STUDY-7", "Commentary text", none, none, none, none⟩,
   rdPdfFixture⟩

/-- Fixture: the final signed result produced for `draftFixture` by the
test user. -/
def frFinalFixture : FinalResult :=
  ⟨"FINAL_VERITAS_Summary_STUDY-7.pdf",
   ⟨"", "STUDY-7", "Commentary text", none, none, none,
     some ⟨"testuser", 0, "Author Approval"⟩⟩,
   "application/pdf"⟩

/-- Fixture: a two-row frame for anomaly detection in which one row has
a null feature, leaving a single null-free row. -/
def dfAnom : DF :=
  ⟨["x", "y"],
   [⟨"r1", [("x", some 1), ("y", none)]⟩,
    ⟨"r2", [("x", some 1), ("y", some 2)]⟩]⟩

/-- The successor state in the fixed Kanban order, written out as the
spec words it; used to state the amended transition claim against the
index-based computation of the source. -/
def nextKanban : String → String
  | "Open" => "In Progress"
  | "In Progress" => "Under Review"
  | "Under Review" => "Closed"
  | _ => ""

/-!  Supporting lemmas. -/

lemma appendBlock_length (t : Nat) (cs : List AppendCall) :
    (appendBlock t cs).length = cs.length := by
  induction cs generalizing t with
  | nil => rfl
  | cons c cs ih => simp [appendBlock, ih]

lemma applyAppends_eq (st : RepoState) (cs : List AppendCall) :
    applyAppends st cs =
      ⟨st.deviations, st.audit ++ appendBlock st.clock cs, st.clock + cs.length⟩ := by
  induction cs generalizing st with
  | nil => simp [applyAppends, appendBlock]
  | cons c cs ih =>
      simp only [applyAppends, List.foldl_cons] at *
      rw [ih]
      simp [write_audit_log, appendBlock, mkAuditEntry]
      omega

lemma appendBlock_timestamp_lt (t : Nat) (cs : List AppendCall) :
    ∀ e ∈ appendBlock t cs, t ≤ e.timestamp ∧ e.timestamp < t + cs.length := by
  induction cs generalizing t with
  | nil => simp [appendBlock]
  | cons c cs ih =>
      intro e he
      simp only [appendBlock, List.mem_cons] at he
      rcases he with rfl | he
      · simp [mkAuditEntry]
      · have := ih (t + 1) e he
        have hl : (c :: cs).length = cs.length + 1 := rfl
        omega

lemma appendBlock_record_id (t : Nat) (cs : List AppendCall) :
    ∀ e ∈ appendBlock t cs, ∃ c ∈ cs, e.record_id = c.record_id := by
  induction cs generalizing t with
  | nil => simp [appendBlock]
  | cons c cs ih =>
      intro e he
      simp only [appendBlock, List.mem_cons] at he
      rcases he with rfl | he
      · exact ⟨c, by simp [mkAuditEntry]⟩
      · obtain ⟨c2, hc2, he2⟩ := ih (t + 1) e he
        exact ⟨c2, by simp [hc2], he2⟩

lemma sortByTimestamp_eq_self (l : List AuditEntry)
    (h : l.Pairwise fun a b => a.timestamp ≤ b.timestamp) :
    sortByTimestamp l = l := by
  induction l with
  | nil => rfl
  | cons e rest ih =>
      have htail := ih (List.Pairwise.sublist (List.sublist_cons_self e rest) h)
      simp only [sortByTimestamp, htail]
      cases rest with
      | nil => rfl
      | cons f rest2 =>
          have : e.timestamp ≤ f.timestamp :=
            (List.pairwise_cons.mp h).1 f (by simp)
          simp [insertByTimestamp, this]

lemma appendBlock_pairwise (t : Nat) (cs : List AppendCall) :
    (appendBlock t cs).Pairwise fun a b => a.timestamp ≤ b.timestamp := by
  induction cs generalizing t with
  | nil => simp [appendBlock]
  | cons c cs ih =>
      simp only [appendBlock, List.pairwise_cons]
      refine ⟨fun e he => ?_, ih (t + 1)⟩
      have := (appendBlock_timestamp_lt (t + 1) cs e he).1
      simp [mkAuditEntry]
      omega

lemma appendBlock_calls (t : Nat) (cs : List AppendCall) :
    (appendBlock t cs).map
        (fun e => AppendCall.mk e.user e.action e.details e.record_id) = cs := by
  induction cs generalizing t with
  | nil => rfl
  | cons c cs ih => simp [appendBlock, mkAuditEntry, ih]

lemma qc_foldl_missing (key_cols : List String) (l : List Row) :
    ∀ acc : List Discrepancy,
      l.foldl (fun acc r =>
        if key_cols.any (fun c => isNullAt r c) then
          acc ++ [⟨r.sample_id, "Missing Value",
            .nullCols (key_cols.filter fun c => isNullAt r c)⟩]
        else acc) acc
      = acc ++ ((l.filter fun r => key_cols.any fun c => isNullAt r c).map fun r =>
          ⟨r.sample_id, "Missing Value",
            .nullCols (key_cols.filter fun c => isNullAt r c)⟩) := by
  induction l with
  | nil => simp
  | cons r rs ih =>
      intro acc
      simp only [List.foldl_cons, List.filter_cons]
      by_cases h : (key_cols.any fun c => isNullAt r c) = true
      · rw [if_pos h, if_pos h, ih]
        simp
      · rw [if_neg h, if_neg h, ih]

lemma qc_foldl_negative (l : List Row) :
    ∀ acc : List Discrepancy,
      l.foldl (fun acc r =>
        match getCell r "bio_activity" with
        | some v =>
            if v < 0 then
              acc ++ [⟨r.sample_id, "Impossible Negative Value", .negValue v⟩]
            else acc
        | none => acc) acc
      = acc ++ l.filterMap (fun r =>
          match getCell r "bio_activity" with
          | some v =>
              if v < 0 then
                some ⟨r.sample_id, "Impossible Negative Value", .negValue v⟩
              else none
          | none => none) := by
  induction l with
  | nil => simp
  | cons r rs ih =>
      intro acc
      simp only [List.foldl_cons, List.filterMap_cons]
      cases hg : getCell r "bio_activity" with
      | none => simp [hg, ih]
      | some v =>
          by_cases hv : v < 0 <;> simp [hg, hv, ih]

lemma qc_foldl_oos (cqa : String) (lim : Limits) (l : List Row) :
    ∀ acc : List Discrepancy,
      l.foldl (fun acc2 r =>
        match getCell r cqa with
        | some v =>
            if specOutOfRange v lim then
              acc2 ++ [⟨r.sample_id, "Out of Specification",
                .oos cqa v lim.lsl lim.usl⟩]
            else acc2
        | none => acc2) acc
      = acc ++ l.filterMap (fun r =>
          match getCell r cqa with
          | some v =>
              if specOutOfRange v lim then
                some ⟨r.sample_id, "Out of Specification",
                  .oos cqa v lim.lsl lim.usl⟩
              else none
          | none => none) := by
  induction l with
  | nil => simp
  | cons r rs ih =>
      intro acc
      simp only [List.foldl_cons, List.filterMap_cons]
      cases hg : getCell r cqa with
      | none => simp [hg, ih]
      | some v =>
          by_cases hv : specOutOfRange v lim = true <;> simp [hg, hv, ih]

lemma qc_foldl_spec (df : DF) (sl : List (String × Limits)) :
    ∀ acc : List Discrepancy,
      sl.foldl (fun acc p =>
        if df.columns.contains p.1 then
          df.rows.foldl (fun acc2 r =>
            match getCell r p.1 with
            | some v =>
                if specOutOfRange v p.2 then
                  acc2 ++ [⟨r.sample_id, "Out of Specification",
                    .oos p.1 v p.2.lsl p.2.usl⟩]
                else acc2
            | none => acc2) acc
        else acc) acc
      = acc ++ sl.flatMap (fun p =>
          if df.columns.contains p.1 then
            df.rows.filterMap fun r =>
              match getCell r p.1 with
              | some v =>
                  if specOutOfRange v p.2 then
                    some ⟨r.sample_id, "Out of Specification",
                      .oos p.1 v p.2.lsl p.2.usl⟩
                  else none
              | none => none
          else []) := by
  induction sl with
  | nil => simp
  | cons p ps ih =>
      intro acc
      simp only [List.foldl_cons, List.flatMap_cons]
      by_cases hp : df.columns.contains p.1 = true
      · rw [if_pos hp, if_pos hp, qc_foldl_oos p.1 p.2 df.rows acc, ih]
        simp
      · rw [if_neg hp, if_neg hp, ih]
        simp

lemma apply_qc_rules_eq (df : DF) (rc : RulesConfig)
    (cfg : ProcessCapabilitySettings) (h : "sample_id" ∈ df.columns) :
    apply_qc_rules df rc cfg =
      .ok (qcMissing df rc cfg ++ qcNegative df rc ++ qcSpecLimit df rc cfg) := by
  unfold apply_qc_rules qcMissing qcNegative qcSpecLimit
  rw [if_pos h]
  simp only [qc_foldl_missing, qc_foldl_negative, qc_foldl_spec, List.nil_append]

lemma apply_qc_rules_ok_inv (df : DF) (rc : RulesConfig)
    (cfg : ProcessCapabilitySettings) (ds : List Discrepancy)
    (h : apply_qc_rules df rc cfg = .ok ds) :
    "sample_id" ∈ df.columns ∧
      ds = qcMissing df rc cfg ++ qcNegative df rc ++ qcSpecLimit df rc cfg := by
  by_cases hc : "sample_id" ∈ df.columns
  · refine ⟨hc, ?_⟩
    rw [apply_qc_rules_eq df rc cfg hc] at h
    exact (Except.ok.inj h).symm
  · unfold apply_qc_rules at h
    rw [if_neg hc] at h
    exact absurd h (by simp)

lemma qcSpecLimit_mem (df : DF) (rc : RulesConfig)
    (cfg : ProcessCapabilitySettings) (d : Discrepancy)
    (hd : d ∈ qcSpecLimit df rc cfg) :
    d.issue = "Out of Specification" ∧
      ∃ r ∈ df.rows, r.sample_id = d.sample_id ∧
        ∃ cqa v L U, d.details = .oos cqa v L U ∧ getCell r cqa = some v ∧
          specOutOfRange v ⟨L, U⟩ = true := by
  unfold qcSpecLimit at hd
  by_cases hs : rc.check_spec_limits = true
  · rw [if_pos hs, List.mem_flatMap] at hd
    obtain ⟨p, _, hdp⟩ := hd
    by_cases hp : df.columns.contains p.1 = true
    · rw [if_pos hp, List.mem_filterMap] at hdp
      obtain ⟨r, hr, hmk⟩ := hdp
      cases hg : getCell r p.1 with
      | none => rw [hg] at hmk; exact absurd hmk (by simp)
      | some v =>
          rw [hg] at hmk
          dsimp only at hmk
          by_cases hv : specOutOfRange v p.2 = true
          · rw [if_pos hv] at hmk
            obtain rfl := Option.some.inj hmk
            exact ⟨rfl, r, hr, rfl, p.1, v, p.2.lsl, p.2.usl, rfl, hg, hv⟩
          · rw [if_neg hv] at hmk
            exact absurd hmk (by simp)
    · rw [if_neg hp] at hdp
      exact absurd hdp (by simp)
  · rw [if_neg hs] at hd
    exact absurd hd (by simp)

lemma qcMissing_mem_issue (df : DF) (rc : RulesConfig)
    (cfg : ProcessCapabilitySettings) (d : Discrepancy)
    (hd : d ∈ qcMissing df rc cfg) : d.issue = "Missing Value" := by
  unfold qcMissing at hd
  by_cases hs : rc.check_nulls = true
  · rw [if_pos hs] at hd
    simp only [List.mem_map] at hd
    obtain ⟨r, _, rfl⟩ := hd
    rfl
  · rw [if_neg hs] at hd
    exact absurd hd (by simp)

lemma qcNegative_mem_issue (df : DF) (rc : RulesConfig) (d : Discrepancy)
    (hd : d ∈ qcNegative df rc) : d.issue = "Impossible Negative Value" := by
  unfold qcNegative at hd
  by_cases hs : (rc.check_negatives && df.columns.contains "bio_activity") = true
  · rw [if_pos hs, List.mem_filterMap] at hd
    obtain ⟨r, _, hmk⟩ := hd
    cases hg : getCell r "bio_activity" with
    | none => rw [hg] at hmk; exact absurd hmk (by simp)
    | some v =>
        rw [hg] at hmk
        dsimp only at hmk
        by_cases hv : v < 0
        · rw [if_pos hv] at hmk
          obtain rfl := Option.some.inj hmk
          rfl
        · rw [if_neg hv] at hmk
          exact absurd hmk (by simp)
  · rw [if_neg hs] at hd
    exact absurd hd (by simp)

/-!  Claim theorems. -/

/-- C1 counterexample: a deviation stored as Closed is advanced with the
stale expected status Open — the claim demands an InvalidTransition
failure leaving the store and the ledger unchanged, but the call
succeeds, rewrites the stored status to In Progress, and appends an
audit entry.  The expected status is never compared against the stored
one. -/
theorem advance_ignores_stored_status_cex :
    (advance_deviation_status stClosedDev "DEV-1" "Open" "j.doe").2 = .ok () ∧
    ((advance_deviation_status stClosedDev "DEV-1" "Open" "j.doe").1.deviations.map
      fun d => d.status) = ["In Progress"] ∧
    (stClosedDev.deviations.map fun d => d.status) = ["Closed"] ∧
    (advance_deviation_status stClosedDev "DEV-1" "Open" "j.doe").1.audit.length = 1 :=
  ⟨rfl, rfl, rfl, rfl⟩

/-- C1 (amended): `advance_deviation_status` validates only the
caller-supplied status: it fails with a ValueError when that status is
not one of the four Kanban states or is the terminal Closed, and on
every failing call neither the deviation store nor the audit ledger
changes; otherwise it sets the stored status of every deviation with
that id to the successor of the supplied status in the fixed order
Open → In Progress → Under Review → Closed and appends exactly one
audit entry describing the transition.  The stored status is not
consulted. -/
theorem advance_deviation_status_spec (st : RepoState)
    (dev_id cur username : String) :
    (cur ∉ kanban_states →
      advance_deviation_status st dev_id cur username =
        (st, .error (.valueError ("Invalid current status: " ++ cur)))) ∧
    (cur = "Closed" →
      advance_deviation_status st dev_id cur username =
        (st, .error (.valueError ("Cannot advance status: " ++ cur ++
          " is the final state.")))) ∧
    (cur ∈ kanban_states → cur ≠ "Closed" →
      advance_deviation_status st dev_id cur username =
        ({ deviations := st.deviations.map fun d =>
             if d.id = dev_id then { d with status := nextKanban cur } else d,
           audit := st.audit ++ [⟨st.clock, username, "Deviation Status Changed",
             some dev_id,
             "Status for " ++ dev_id ++ " changed from " ++ cur ++ " to " ++
               nextKanban cur ++ "."⟩],
           clock := st.clock + 1 }, .ok ())) := by
  refine ⟨fun hmem => ?_, fun hclosed => ?_, fun hmem hne => ?_⟩
  · unfold advance_deviation_status
    rw [if_neg hmem]
  · subst hclosed
    rfl
  · have : cur = "Open" ∨ cur = "In Progress" ∨ cur = "Under Review" := by
      simp only [kanban_states, List.mem_cons, List.not_mem_nil, or_false] at hmem
      rcases hmem with h | h | h | h <;> simp_all
    rcases this with rfl | rfl | rfl <;> rfl

/-- C1 witness: advancing with the matching non-terminal status Open
succeeds, moves the matching deviation to In Progress and appends the
one transition entry. -/
theorem advance_deviation_status_spec_witness :
    advance_deviation_status stOpenDev "DEV-2" "Open" "p.smith" =
      ({ deviations := stOpenDev.deviations.map fun d =>
           if d.id = "DEV-2" then { d with status := nextKanban "Open" } else d,
         audit := stOpenDev.audit ++ [⟨stOpenDev.clock, "p.smith",
           "Deviation Status Changed", some "DEV-2",
           "Status for " ++ "DEV-2" ++ " changed from " ++ "Open" ++ " to " ++
             nextKanban "Open" ++ "."⟩],
         clock := stOpenDev.clock + 1 }, .ok ()) :=
  (advance_deviation_status_spec stOpenDev "DEV-2" "Open" "p.smith").2.2
    (by decide) (by decide)

/-- C2 counterexample: after one append to the empty ledger the
ledger-assigned identifiers (the RangeIndex of the audit DataFrame kept
by `ignore_index=True` concatenation) are {0}, not {1} as claimed. -/
theorem audit_seq_zero_based_cex :
    (applyAppends emptyState
      [⟨"j.doe", "Data Entry", "Entered assay result.", none⟩]).audit.length = 1 ∧
    ledgerIndices (applyAppends emptyState
      [⟨"j.doe", "Data Entry", "Entered assay result.", none⟩]).audit = [0] ∧
    ([0] : List Nat) ≠ [1] := by
  decide

/-- C2 (amended): every audit append adds exactly one entry; starting
from an empty ledger, after N appends the ledger has length exactly N
and its ledger-assigned indices are exactly 0..N-1, strictly increasing
in append order with no gaps; appends never mutate existing entries, so
an index is never reused. -/
theorem audit_append_indices_spec (st : RepoState) (cs : List AppendCall) :
    (applyAppends st cs).audit.length = st.audit.length + cs.length ∧
    (applyAppends st cs).audit.take st.audit.length = st.audit ∧
    (applyAppends emptyState cs).audit.length = cs.length ∧
    ledgerIndices (applyAppends emptyState cs).audit = List.range cs.length ∧
    List.Pairwise (· < ·) (ledgerIndices (applyAppends emptyState cs).audit) := by
  have h1 := applyAppends_eq st cs
  have h2 := applyAppends_eq emptyState cs
  refine ⟨?_, ?_, ?_, ?_, ?_⟩
  · rw [h1]; simp [appendBlock_length]
  · rw [h1]; simp [List.take_left]
  · rw [h2]; simp [emptyState, appendBlock_length]
  · rw [h2]; simp [ledgerIndices, emptyState, appendBlock_length]
  · rw [h2]
    simp only [ledgerIndices]
    exact List.pairwise_lt_range _

/-- C3 counterexample: appending with an empty user, and with an empty
action, both succeed and grow the ledger by one entry — the claim
demands an InvalidEntry failure with no entry appended. -/
theorem write_audit_log_no_validation_cex :
    (write_audit_log emptyState "" "Data Entry" "Entered assay result." none).audit =
      [⟨0, "", "Data Entry", none, "Entered assay result."⟩] ∧
    (write_audit_log emptyState "j.doe" "" "Entered assay result." none).audit.length
      = 1 := by
  decide

/-- C3 (amended): `write_audit_log` performs no input validation: every
call — with empty or non-empty user and action — succeeds, appends
exactly one entry carrying its arguments and the current instant,
preserves all existing entries, and leaves the deviation store
untouched. -/
theorem write_audit_log_always_appends (st : RepoState)
    (user action details : String) (record_id : Option String) :
    (write_audit_log st user action details record_id).audit.length =
      st.audit.length + 1 ∧
    (write_audit_log st user action details record_id).audit.take
      st.audit.length = st.audit ∧
    (write_audit_log st user action details record_id).audit.getLast? =
      some ⟨st.clock, user, action, record_id, details⟩ ∧
    (write_audit_log st user action details record_id).deviations =
      st.deviations := by
  refine ⟨?_, ?_, ?_, rfl⟩
  · simp [write_audit_log]
  · simp [write_audit_log, List.take_left]
  · simp [write_audit_log]

/-- C5: after appending k ledger entries tagged with a record id to a
ledger in which that id does not yet appear, the lineage trace of that
id returns exactly those k entries in append order (they are the suffix
the appends created, and their payloads are the calls in order); and
for a record id that never appears in a ledger, the trace is empty
rather than an error. -/
theorem trace_lineage_roundtrip (st : RepoState) (cs : List AppendCall)
    (rid : String)
    (hfresh : ∀ e ∈ st.audit, e.record_id ≠ some rid)
    (hcalls : ∀ c ∈ cs, c.record_id = some rid) :
    (trace_lineage (applyAppends st cs).audit rid).length = cs.length ∧
    (trace_lineage (applyAppends st cs).audit rid).map
      (fun e => AppendCall.mk e.user e.action e.details e.record_id) = cs ∧
    trace_lineage (applyAppends st cs).audit rid =
      (applyAppends st cs).audit.drop st.audit.length ∧
    (∀ (l : List AuditEntry) (r : String),
      (∀ e ∈ l, e.record_id ≠ some r) → trace_lineage l r = []) := by
  have hemptyTrace : ∀ (l : List AuditEntry) (r : String),
      (∀ e ∈ l, e.record_id ≠ some r) → trace_lineage l r = [] := by
    intro l r hl
    unfold trace_lineage
    have : (l.filter fun e => e.record_id == some r) = [] := by
      rw [List.filter_eq_nil_iff]
      intro e he
      simpa using hl e he
    rw [this]
    rfl
  have haudit : (applyAppends st cs).audit =
      st.audit ++ appendBlock st.clock cs := by
    rw [applyAppends_eq]
  have hfilter : ((applyAppends st cs).audit.filter
      fun e => e.record_id == some rid) = appendBlock st.clock cs := by
    rw [haudit, List.filter_append]
    have h1 : (st.audit.filter fun e => e.record_id == some rid) = [] := by
      rw [List.filter_eq_nil_iff]
      intro e he
      simpa using hfresh e he
    have h2 : ((appendBlock st.clock cs).filter
        fun e => e.record_id == some rid) = appendBlock st.clock cs := by
      rw [List.filter_eq_self]
      intro e he
      obtain ⟨c, hc, hec⟩ := appendBlock_record_id st.clock cs e he
      simp [hec, hcalls c hc]
    rw [h1, h2, List.nil_append]
  have htrace : trace_lineage (applyAppends st cs).audit rid =
      appendBlock st.clock cs := by
    unfold trace_lineage
    rw [hfilter]
    exact sortByTimestamp_eq_self _ (appendBlock_pairwise st.clock cs)
  refine ⟨?_, ?_, ?_, hemptyTrace⟩
  · rw [htrace, appendBlock_length]
  · rw [htrace, appendBlock_calls]
  · rw [htrace, haudit, List.drop_left]

/-- C5 witness: two appends tagged R1 onto the empty ledger trace back
as exactly those two entries in append order. -/
theorem trace_lineage_roundtrip_witness :
    (trace_lineage (applyAppends emptyState
      [⟨"j.doe", "Data Entry", "Created the record.", some "R1"⟩,
       ⟨"p.smith", "Data Update", "Amended the record.", some "R1"⟩]).audit
        "R1").length = 2 ∧
    (trace_lineage (applyAppends emptyState
      [⟨"j.doe", "Data Entry", "Created the record.", some "R1"⟩,
       ⟨"p.smith", "Data Update", "Amended the record.", some "R1"⟩]).audit
        "R1").map
      (fun e => AppendCall.mk e.user e.action e.details e.record_id) =
      [⟨"j.doe", "Data Entry", "Created the record.", some "R1"⟩,
       ⟨"p.smith", "Data Update", "Amended the record.", some "R1"⟩] ∧
    trace_lineage (applyAppends emptyState
      [⟨"j.doe", "Data Entry", "Created the record.", some "R1"⟩,
       ⟨"p.smith", "Data Update", "Amended the record.", some "R1"⟩]).audit
        "R1" =
      (applyAppends emptyState
        [⟨"j.doe", "Data Entry", "Created the record.", some "R1"⟩,
         ⟨"p.smith", "Data Update", "Amended the record.", some "R1"⟩]).audit.drop
        emptyState.audit.length ∧
    (∀ (l : List AuditEntry) (r : String),
      (∀ e ∈ l, e.record_id ≠ some r) → trace_lineage l r = []) :=
  trace_lineage_roundtrip emptyState
    [⟨"j.doe", "Data Entry", "Created the record.", some "R1"⟩,
     ⟨"p.smith", "Data Update", "Amended the record.", some "R1"⟩] "R1"
    (by decide) (by decide)

/-- C6: for a sample with at least two non-null values and nonzero
sample standard deviation (equivalently nonzero sample variance, the
standard deviation being its square root), with only an upper limit
supplied `calculate_cpk` is exactly (usl - mean) / (3 * std): the absent
lower bound contributes the infinite Cpl to the min and is never read
as zero; with both bounds absent the result is the infinite
sentinel. -/
theorem calculate_cpk_one_sided (data : List (Option ℚ)) (u : ℚ)
    (hlen : 2 ≤ (dropna data).length)
    (hvar : sampleVar (dropna data) ≠ 0) :
    calculate_cpk data none (some u) =
      ((((u : ℝ) - (listMean (dropna data) : ℝ)) /
        (3 * Real.sqrt (sampleVar (dropna data)))) : ℝ) ∧
    calculate_cpk data none none = ⊤ := by
  constructor
  · unfold calculate_cpk
    rw [if_neg (by omega), if_neg hvar, if_neg (by simp)]
    exact min_eq_left le_top
  · unfold calculate_cpk
    rw [if_neg (by omega), if_neg hvar, if_pos (by simp)]

/-- C6 witness: the sample [0, 6] has two values and variance 18, and
with USL 9 the Cpk is exactly (9 - 3) / (3 * sqrt 18). -/
theorem calculate_cpk_one_sided_witness :
    (2 ≤ (dropna [some 0, some 6]).length) ∧
    (sampleVar (dropna [some 0, some 6]) ≠ 0) ∧
    (calculate_cpk [some 0, some 6] none (some 9) =
      ((((9 : ℝ) - (listMean (dropna [some 0, some 6]) : ℝ)) /
        (3 * Real.sqrt (sampleVar (dropna [some 0, some 6])))) : ℝ) ∧
     calculate_cpk [some 0, some 6] none none = ⊤) :=
  ⟨by decide, by norm_num [sampleVar, dropna, listMean, List.filterMap_cons],
    calculate_cpk_one_sided [some 0, some 6] 9 (by decide)
      (by norm_num [sampleVar, dropna, listMean, List.filterMap_cons])⟩

/-- C7 counterexample: with only the spec-limit rule enabled on a
two-row dataset where the later row fails the first configured CQA
(purity) and the earlier row fails a later CQA (bio_activity), the two
discrepancies of that one rule come out CQA-major — S2 before S1 —
not in source row order S1, S2 as the claim states. -/
theorem qc_spec_rule_order_cex :
    apply_qc_rules dfOrder rcSpecOnly veritasProcessCapability =
      .ok [⟨"S2", "Out of Specification", .oos "purity" 150 (some 98) (some 102)⟩,
           ⟨"S1", "Out of Specification",
             .oos "bio_activity" 200 (some 90) (some 110)⟩] ∧
    dfOrder.rows.map (fun r => r.sample_id) = ["S1", "S2"] ∧
    (["S2", "S1"] : List String) ≠ ["S1", "S2"] := by
  refine ⟨rfl, rfl, by decide⟩

/-- C7 (amended): the QC rule engine is a pure function — identical
inputs give identical discrepancy sequences — and its output is ordered
by rule (missing-value, then negative-value, then spec-limit); within
the missing-value and negative-value rules rows appear in source order,
while within the spec-limit rule discrepancies are grouped by the
configured CQAs in dict order and only within one CQA follow source row
order. -/
theorem qc_deterministic_and_ordered (df df2 : DF) (rc rc2 : RulesConfig)
    (cfg cfg2 : ProcessCapabilitySettings)
    (hdf : df = df2) (hrc : rc = rc2) (hcfg : cfg = cfg2) :
    apply_qc_rules df rc cfg = apply_qc_rules df2 rc2 cfg2 ∧
    ("sample_id" ∈ df.columns →
      apply_qc_rules df rc cfg =
        .ok (qcMissing df rc cfg ++ qcNegative df rc ++ qcSpecLimit df rc cfg)) := by
  subst hdf hrc hcfg
  exact ⟨rfl, fun h => apply_qc_rules_eq df rc cfg h⟩

/-- C7 witness: the order-fixture evaluation decomposed by rule. -/
theorem qc_deterministic_and_ordered_witness :
    apply_qc_rules dfOrder rcSpecOnly veritasProcessCapability =
      .ok (qcMissing dfOrder rcSpecOnly veritasProcessCapability ++
        qcNegative dfOrder rcSpecOnly ++
        qcSpecLimit dfOrder rcSpecOnly veritasProcessCapability) :=
  (qc_deterministic_and_ordered dfOrder dfOrder rcSpecOnly rcSpecOnly
    veritasProcessCapability veritasProcessCapability rfl rfl rfl).2 (by decide)

/-- C8: on the five-row purity scenario (one null, one value of 150,
everything else within spec) with the null and spec-limit rules enabled
the engine reports exactly two discrepancies — one Missing Value for
the null row and one Out of Specification for the 150 row; and in
general the spec-limit rule never flags a null: every Out of
Specification discrepancy carries a present (non-null) cell value of
its row. -/
theorem qc_scenario_five_rows :
    apply_qc_rules dfScenario rcNullsSpec veritasProcessCapability =
      .ok [⟨"S2", "Missing Value", .nullCols ["purity"]⟩,
           ⟨"S3", "Out of Specification",
             .oos "purity" 150 (some 98) (some 102)⟩] ∧
    (∀ (df : DF) (rc : RulesConfig) (cfg : ProcessCapabilitySettings)
      (ds : List Discrepancy) (d : Discrepancy),
      apply_qc_rules df rc cfg = .ok ds → d ∈ ds →
      d.issue = "Out of Specification" →
      ∃ r ∈ df.rows, r.sample_id = d.sample_id ∧
        ∃ cqa v L U, d.details = .oos cqa v L U ∧ getCell r cqa = some v ∧
          specOutOfRange v ⟨L, U⟩ = true) := by
  refine ⟨rfl, ?_⟩
  intro df rc cfg ds d hok hmem hissue
  obtain ⟨hcol, rfl⟩ := apply_qc_rules_ok_inv df rc cfg ds hok
  rw [List.mem_append, List.mem_append] at hmem
  rcases hmem with (hmem | hmem) | hmem
  · have := qcMissing_mem_issue df rc cfg d hmem
    rw [this] at hissue
    exact absurd hissue (by decide)
  · have := qcNegative_mem_issue df rc d hmem
    rw [this] at hissue
    exact absurd hissue (by decide)
  · exact (qcSpecLimit_mem df rc cfg d hmem).2

/-- C8 witness: the general no-null-flag clause applied to the Out of
Specification discrepancy of the concrete scenario. -/
theorem qc_scenario_five_rows_witness :
    ∃ r ∈ dfScenario.rows,
      r.sample_id = (Discrepancy.mk "S3" "Out of Specification"
        (.oos "purity" 150 (some 98) (some 102))).sample_id ∧
      ∃ cqa v L U,
        (Discrepancy.mk "S3" "Out of Specification"
          (.oos "purity" 150 (some 98) (some 102))).details = .oos cqa v L U ∧
        getCell r cqa = some v ∧ specOutOfRange v ⟨L, U⟩ = true :=
  qc_scenario_five_rows.2 dfScenario rcNullsSpec veritasProcessCapability
    [⟨"S2", "Missing Value", .nullCols ["purity"]⟩,
     ⟨"S3", "Out of Specification", .oos "purity" 150 (some 98) (some 102)⟩]
    (Discrepancy.mk "S3" "Out of Specification"
      (.oos "purity" 150 (some 98) (some 102)))
    rfl (by decide) rfl

/-- C9 counterexample: a draft request in the PowerPoint format returns
successfully, but the returned artifact carries no watermark — the
claim that the operation returns the watermarked artifact fails for the
Slides format (only the PDF rendering receives the DRAFT watermark). -/
theorem draft_ppt_unwatermarked_cex :
    ((generate_draft_report emptyState paramsPpt).2.map
      fun r => r.artifact.isWatermarked) = .ok false := rfl

/-- C9 (amended): draft generation never writes to the repository: on
every call — returning or raising — the deviation store, the audit
ledger and the clock are exactly as before; on a successful return the
underlying report data (study, commentary, dataset, CQA, sections) is
retained in the result, and the artifact is the DRAFT-watermarked PDF
when the PDF format was requested, or the unwatermarked PowerPoint
rendering otherwise. -/
theorem generate_draft_report_frame (st : RepoState) (p : ReportParams) :
    (generate_draft_report st p).1 = st ∧
    (∀ r, (generate_draft_report st p).2 = .ok r →
      p.study_id = some r.report_data.study_id ∧
      p.commentary = some r.report_data.commentary ∧
      p.report_df = some r.report_data.data ∧
      p.cqa = some r.report_data.cqa ∧
      p.sections_config = some r.report_data.sections_config ∧
      ((p.report_format = some "PDF" ∧
        ∃ doc, r.artifact = .pdf doc ∧ doc.watermark = "DRAFT" ∧
          doc.signature = none) ∨
       (p.report_format ≠ some "PDF" ∧ ∃ doc, r.artifact = .ppt doc))) := by
  obtain ⟨_ | df, _ | sid, _ | fmt, _ | cqa, _ | sec, _ | com⟩ := p
  all_goals
    try exact ⟨rfl, fun r h => by simp [generate_draft_report] at h⟩
  dsimp only [generate_draft_report]
  split
  · exact ⟨rfl, fun r h => by simp at h⟩
  · split
    · exact ⟨rfl, fun r h => by simp at h⟩
    · split
      · split
        · rename_i hfmt
          split
          · exact ⟨rfl, fun r h => by simp at h⟩
          · rename_i doc hdoc
            refine ⟨rfl, fun r h => ?_⟩
            obtain rfl := Except.ok.inj h
            refine ⟨rfl, rfl, rfl, rfl, rfl, .inl ⟨by rw [hfmt], doc, rfl, ?_, ?_⟩⟩
            · unfold generate_pdf_report at hdoc
              split at hdoc
              · exact absurd hdoc (by simp)
              · obtain rfl := Except.ok.inj hdoc
                rfl
            · unfold generate_pdf_report at hdoc
              split at hdoc
              · exact absurd hdoc (by simp)
              · obtain rfl := Except.ok.inj hdoc
                rfl
        · rename_i hfmt
          refine ⟨rfl, fun r h => ?_⟩
          obtain rfl := Except.ok.inj h
          exact ⟨rfl, rfl, rfl, rfl, rfl, .inr ⟨by simp [hfmt], _, rfl⟩⟩
      · exact ⟨rfl, fun r h => by simp at h⟩

/-- C9 witness: the frame conclusion instantiated at the concrete PDF
request: the state is untouched, the report data is retained, and the
artifact is the DRAFT-watermarked PDF. -/
theorem generate_draft_report_frame_witness :
    (generate_draft_report emptyState paramsPdf).1 = emptyState ∧
    (paramsPdf.study_id = some rPdfFixture.report_data.study_id ∧
     paramsPdf.commentary = some rPdfFixture.report_data.commentary ∧
     paramsPdf.report_df = some rPdfFixture.report_data.data ∧
     paramsPdf.cqa = some rPdfFixture.report_data.cqa ∧
     paramsPdf.sections_config = some rPdfFixture.report_data.sections_config ∧
     ((paramsPdf.report_format = some "PDF" ∧
       ∃ doc, rPdfFixture.artifact = .pdf doc ∧ doc.watermark = "DRAFT" ∧
         doc.signature = none) ∨
      (paramsPdf.report_format ≠ some "PDF" ∧
        ∃ doc, rPdfFixture.artifact = .ppt doc))) :=
  ⟨(generate_draft_report_frame emptyState paramsPdf).1,
   (generate_draft_report_frame emptyState paramsPdf).2 rPdfFixture rfl⟩

/-- C4: the signing flow fails with the authentication failure whenever
the credential check rejects the user/credential pair, and the
repository — in particular the audit ledger — is unchanged on that
refusal; when the credentials verify, any failure of the re-render also
leaves the ledger unchanged, and on success exactly one E-Signature
Applied entry is appended while the re-rendered artifact carries no
watermark and embeds the signature block of user, instant and
reason. -/
theorem sign_and_lock_spec (st : RepoState) (draft : ReportData)
    (reason user password : String) :
    (verify_credentials user password = false →
      sign_and_lock st draft reason user password =
        (st, .error .authenticationFailed)) ∧
    (verify_credentials user password = true →
      (∀ e, (sign_and_lock st draft reason user password).2 = .error e →
        (sign_and_lock st draft reason user password).1.audit = st.audit) ∧
      (∀ fr, (sign_and_lock st draft reason user password).2 = .ok fr →
        (sign_and_lock st draft reason user password).1.audit =
          st.audit ++ [⟨st.clock + 1, user, "E-Signature Applied",
            some draft.study_id,
            "Signed report for study " ++ draft.study_id ++ " for reason: " ++
              reason ++ "."⟩] ∧
        fr.final_doc.watermark = "" ∧
        fr.final_doc.signature = some ⟨user, st.clock, reason⟩ ∧
        fr.filename = "FINAL_VERITAS_Summary_" ++ draft.study_id ++ ".pdf")) := by
  constructor
  · intro hv
    simp [sign_and_lock, hv]
  · intro hv
    rw [sign_and_lock, if_pos (by rw [hv])]
    unfold finalize_and_sign_report
    dsimp only
    rcases hg : generate_pdf_report
        { draft with signature_details := some ⟨user, st.clock, reason⟩ } "" with
      e0 | doc
    · constructor
      · intro e _
        rfl
      · intro fr hfr
        exact absurd hfr (by simp)
    · constructor
      · intro e he
        exact absurd he (by simp)
      · intro fr hfr
        obtain rfl := (Except.ok.inj hfr).symm
        refine ⟨rfl, ?_, ?_, rfl⟩ <;>
        · unfold generate_pdf_report at hg
          split at hg
          · exact absurd hg (by simp)
          · obtain rfl := Except.ok.inj hg
            rfl

/-- C4 witness: the signing flow with the valid mock credentials on the
draft fixture appends exactly the one signature entry and produces the
unwatermarked, signature-carrying final document. -/
theorem sign_and_lock_spec_witness :
    verify_credentials "testuser" "password" = true ∧
    ((sign_and_lock emptyState draftFixture "Author Approval" "testuser"
        "password").1.audit =
      emptyState.audit ++ [⟨emptyState.clock + 1, "testuser",
        "E-Signature Applied", some draftFixture.study_id,
        "Signed report for study " ++ draftFixture.study_id ++
          " for reason: " ++ "Author Approval" ++ "."⟩] ∧
     frFinalFixture.final_doc.watermark = "" ∧
     frFinalFixture.final_doc.signature =
       some ⟨"testuser", emptyState.clock, "Author Approval"⟩ ∧
     frFinalFixture.filename =
       "FINAL_VERITAS_Summary_" ++ draftFixture.study_id ++ ".pdf") :=
  ⟨by decide,
   ((sign_and_lock_spec emptyState draftFixture "Author Approval" "testuser"
      "password").2 (by decide)).2 frFinalFixture rfl⟩

/-- C10: with all selected feature columns present and a contamination
strictly between 0 and 0.5, when fewer than two rows survive the null
drop the detector returns the empty prediction array and the empty
frame with the selected columns instead of raising or fitting; and on
every successful return the kept frame is exactly the null-free rows
that were labelled (all of them when the model ran, none when it was
skipped). -/
theorem run_anomaly_detection_insufficient_rows (df : DF) (cols : List String)
    (contamination : ℚ) (fit_predict : List (List ℚ) → List Int)
    (hcols : (cols.all fun c => df.columns.contains c) = true)
    (h0 : 0 < contamination) (h12 : contamination < 1/2) :
    ((dropnaProj df cols).length < 2 →
      run_anomaly_detection df cols contamination fit_predict =
        .ok ([], (cols, []))) ∧
    (∀ preds kept,
      run_anomaly_detection df cols contamination fit_predict =
        .ok (preds, kept) →
      kept.1 = cols ∧
      ((dropnaProj df cols).length < 2 → kept.2 = [] ∧ preds = []) ∧
      (2 ≤ (dropnaProj df cols).length →
        kept.2 = dropnaProj df cols ∧
        preds = fit_predict (dropnaProj df cols))) := by
  have hres : run_anomaly_detection df cols contamination fit_predict =
      if (dropnaProj df cols).length < 2 then .ok ([], (cols, []))
      else .ok (fit_predict (dropnaProj df cols), (cols, dropnaProj df cols)) := by
    unfold run_anomaly_detection
    rw [if_neg (not_not_intro (by rw [hcols])),
      if_neg (not_not_intro ⟨h0, h12⟩)]
  constructor
  · intro hlen
    rw [hres, if_pos hlen]
  · intro preds kept hok
    rw [hres] at hok
    by_cases hlen : (dropnaProj df cols).length < 2
    · rw [if_pos hlen] at hok
      obtain ⟨h1, h2⟩ := Prod.mk.inj (Except.ok.inj hok).symm
      subst h1 h2
      exact ⟨rfl, fun _ => ⟨rfl, rfl⟩, fun h => absurd hlen (by omega)⟩
    · rw [if_neg hlen] at hok
      obtain ⟨h1, h2⟩ := Prod.mk.inj (Except.ok.inj hok).symm
      subst h1 h2
      exact ⟨rfl, fun h => absurd h hlen, fun _ => ⟨rfl, rfl⟩⟩

/-- C10 witness: on the fixture frame only one null-free row remains,
so the detector returns empty predictions and the empty frame with the
selected columns. -/
theorem run_anomaly_detection_insufficient_rows_witness :
    ((["x", "y"].all fun c => dfAnom.columns.contains c) = true) ∧
    (0 : ℚ) < 17/100 ∧ (17/100 : ℚ) < 1/2 ∧
    run_anomaly_detection dfAnom ["x", "y"] (17/100) (fun _ => []) =
      .ok ([], (["x", "y"], [])) :=
  ⟨by decide, by norm_num, by norm_num,
   (run_anomaly_detection_insufficient_rows dfAnom ["x", "y"] (17/100)
      (fun _ => []) (by decide) (by norm_num) (by norm_num)).1 (by decide)⟩

end Veritas
